import Mathlib

/-!
Verification of the browser-extension scanner (`src/extensions.py`) against its
natural-language specification.  The development shallowly embeds the data
model (`Permission`, `Connection`, `ExtensionInfo`), the pure helpers
(`__calculate_risk`, `__parse_chrome_extension_name/description`, `__decode`),
the Chromium network-state connection extractor, and both artifact loaders
over an explicit model of the filesystem.  Python's dynamically-typed JSON
values are modelled by `JValue`; places where the Python code can raise an
exception are modelled with `Except String`, the error string naming the
Python exception class that would be raised.
-/

/-- A parsed JSON document / Python object obtained from `json.load`. -/
inductive JValue where
  | null : JValue
  | bool : Bool → JValue
  | num : Int → JValue
  | str : String → JValue
  | arr : List JValue → JValue
  | obj : List (String × JValue) → JValue
deriving Repr

/-- Association-list lookup: Python `dict` access (first binding wins). -/
def alookup (kvs : List (String × JValue)) (k : String) : Option JValue :=
  match kvs with
  | [] => none
  | (k', v) :: rest => if k' = k then some v else alookup rest k

/-- Python truthiness (`if x:`) of a JSON value. -/
def pyTruthy : JValue → Bool
  | .null => false
  | .bool b => b
  | .num n => n ≠ 0
  | .str s => s ≠ ""
  | .arr xs => !xs.isEmpty
  | .obj kvs => !kvs.isEmpty

/-- Python `x.get(k, d)`: raises `AttributeError` when `x` is not a dict. -/
def pyGet (v : JValue) (k : String) (d : JValue) : Except String JValue :=
  match v with
  | .obj kvs => .ok ((alookup kvs k).getD d)
  | _ => .error "AttributeError"

/-- Python `x.get(k, None)` where an absent key and an explicit JSON `null`
both come out as Python `None`, modelled as `Option.none`. -/
def pyGetNone (v : JValue) (k : String) : Except String (Option JValue) :=
  match v with
  | .obj kvs =>
    match alookup kvs k with
    | none => .ok none
    | some .null => .ok none
    | some x => .ok (some x)
  | _ => .error "AttributeError"

/-- Python `x[0]`: first element of a sequence, `IndexError` when empty,
`TypeError` on non-sequences. -/
def pyIndex0 : JValue → Except String JValue
  | .arr [] => .error "IndexError"
  | .arr (x :: _) => .ok x
  | .str s =>
    match s.data with
    | [] => .error "IndexError"
    | c :: _ => .ok (.str (String.mk [c]))
  | _ => .error "TypeError"

/-- Python iteration `for x in v`: lists yield their elements, strings their
characters, dicts their keys; anything else raises `TypeError`. -/
def pyIter : JValue → Except String (List JValue)
  | .arr xs => .ok xs
  | .str s => .ok (s.data.map fun c => .str (String.mk [c]))
  | .obj kvs => .ok (kvs.map fun kv => .str kv.1)
  | _ => .error "TypeError"

/-- Python `str(v)` for the JSON values that can reach it in this program. -/
def pyStr : JValue → String
  | .null => "None"
  | .bool true => "True"
  | .bool false => "False"
  | .num n => toString n
  | .str s => s
  | .arr _ => "[...]"
  | .obj _ => "\x7b...\x7d"

/-- View a value as the Python `str` it must be for a method call such as
`.replace` / `.removeprefix`; otherwise `AttributeError`. -/
def asStr : JValue → Except String String
  | .str s => .ok s
  | _ => .error "AttributeError"

/-- View a value as the dict it must be for a `.get` call; otherwise
`AttributeError`. -/
def asObj : JValue → Except String (List (String × JValue))
  | .obj kvs => .ok kvs
  | _ => .error "AttributeError"

/-- Whether `needle` occurs as a contiguous substring of `hay`. -/
def strContains (hay needle : String) : Bool :=
  decide (List.IsInfix needle.data hay.data)

/-- Python `"MSG" in v`: substring test on strings, membership on
lists/dicts, `TypeError` otherwise. -/
def pyInStr (needle : String) : JValue → Except String Bool
  | .str s => .ok (strContains s needle)
  | .arr xs => .ok (xs.any fun e => match e with | .str t => t = needle | _ => false)
  | .obj kvs => .ok (kvs.any fun kv => kv.1 = needle)
  | _ => .error "TypeError"

/-- Python `float(v)` used for epoch-millisecond fields; only integral
values (numbers, booleans, integer-shaped strings) are modelled; other
shapes raise. -/
def pyFloatInt : JValue → Except String Int
  | .num n => .ok n
  | .bool true => .ok 1
  | .bool false => .ok 0
  | .str s =>
    match s.toInt? with
    | some n => .ok n
    | none => .error "ValueError"
  | _ => .error "TypeError"

/-- Python `s.removeprefix(p)` on character lists. -/
def pyRemovePreL (s p : List Char) : List Char :=
  if p.isPrefixOf s then s.drop p.length else s

/-- Python `s.removesuffix(p)` on character lists. -/
def pyRemoveSufL (s p : List Char) : List Char :=
  if p.isSuffixOf s then s.take (s.length - p.length) else s

/-- Python `s.removeprefix(p)`. -/
def pyRemovePre (s p : String) : String :=
  String.mk (pyRemovePreL s.data p.data)

/-- Python `s.removesuffix(p)`. -/
def pyRemoveSuf (s p : String) : String :=
  String.mk (pyRemoveSufL s.data p.data)

/-- Left-to-right, non-overlapping replacement: Python
`s.replace(pat, repl)` on character lists, with a structural fuel argument.
With a non-empty `pat` every step consumes at least one character of the
subject, so `fuel = s.length` never runs out; every call site in the
program uses a non-empty `pat`. -/
def pyReplaceFuel (pat repl : List Char) : Nat → List Char → List Char
  | _, [] => []
  | 0, s => s
  | fuel + 1, c :: rest =>
    match pat with
    | [] => c :: rest
    | p :: ps =>
      if (p :: ps).isPrefixOf (c :: rest) then
        repl ++ pyReplaceFuel pat repl fuel (rest.drop ps.length)
      else
        c :: pyReplaceFuel pat repl fuel rest

/-- Replacement on character lists at adequate fuel. -/
def pyReplaceL (pat repl s : List Char) : List Char :=
  pyReplaceFuel pat repl s.length s

/-- Python `s.replace(pat, repl)` (replaces every occurrence). -/
def pyReplace (s pat repl : String) : String :=
  String.mk (pyReplaceL pat.data repl.data s.data)

/-- Python `s.split(sep)[0]`: the segment before the first occurrence of the
separator character. -/
def pySplitFirst (s : String) (sep : Char) : String :=
  String.mk (s.data.takeWhile fun c => c ≠ sep)

/-- Python `s.split(sep)` for a single-character separator. -/
def pySplitL (sep : Char) (s : List Char) : List (List Char) :=
  match s with
  | [] => [[]]
  | c :: rest =>
    let tl := pySplitL sep rest
    if c = sep then [] :: tl
    else
      match tl with
      | [] => [[c]]
      | x :: xs => (c :: x) :: xs

/-- Python `s.split(sep)` as strings. -/
def pySplit (s : String) (sep : Char) : List String :=
  (pySplitL sep s.data).map String.mk

/-- Python string comparison: lexicographic on code points. -/
def strLeB : List Char → List Char → Bool
  | [], _ => true
  | _ :: _, [] => false
  | a :: as, b :: bs =>
    if a.toNat < b.toNat then true
    else if b.toNat < a.toNat then false
    else strLeB as bs

/-- Python `s <= t` on strings. -/
def pyStrLe (s t : String) : Bool :=
  strLeB s.data t.data

/-- Python `s.lower()` (ASCII case folding, which is all this program's
keys use). -/
def pyLower (s : String) : String :=
  String.mk (s.data.map Char.toLower)

/-- Value of one base64 alphabet character. -/
def b64CharVal (c : Char) : Option Nat :=
  if 'A' ≤ c ∧ c ≤ 'Z' then some (c.toNat - 65)
  else if 'a' ≤ c ∧ c ≤ 'z' then some (c.toNat - 97 + 26)
  else if '0' ≤ c ∧ c ≤ '9' then some (c.toNat - 48 + 52)
  else if c = '+' then some 62
  else if c = '/' then some 63
  else none

/-- Characters `base64.b64decode` keeps when `validate=False` (the default):
alphabet characters and the padding character. -/
def b64Keep (c : Char) : Bool :=
  (b64CharVal c).isSome || c = '='

/-- Decode base64 in four-character blocks; padding is only accepted at the
very end of the data. -/
def b64Blocks : List Char → Option (List Nat)
  | [] => some []
  | c1 :: c2 :: c3 :: c4 :: rest => do
    let v1 ← b64CharVal c1
    let v2 ← b64CharVal c2
    if c3 = '=' then
      if c4 = '=' ∧ rest = [] then some [v1 * 4 + v2 / 16] else none
    else do
      let v3 ← b64CharVal c3
      if c4 = '=' then
        if rest = [] then some [v1 * 4 + v2 / 16, (v2 % 16) * 16 + v3 / 4]
        else none
      else do
        let v4 ← b64CharVal c4
        let tail ← b64Blocks rest
        some ((v1 * 4 + v2 / 16) :: ((v2 % 16) * 16 + v3 / 4) :: ((v3 % 4) * 64 + v4) :: tail)
  | _ => none

/-- Python `base64.b64decode(s)`: discard foreign characters, then require a
multiple-of-four length and decode; `none` models the raised
`binascii.Error`. -/
def pyB64Decode (s : List Char) : Option (List Nat) :=
  let cs := s.filter b64Keep
  if cs.length % 4 = 0 then b64Blocks cs else none

/-- Strict UTF-8 decoding of a byte sequence (Python `bytes.decode("utf-8")`);
`none` models a raised `UnicodeDecodeError`. -/
def utf8Decode : List Nat → Option (List Char)
  | [] => some []
  | b :: rest =>
    if b < 0x80 then (utf8Decode rest).map (fun cs => Char.ofNat b :: cs)
    else if b < 0xC2 then none
    else if b ≤ 0xDF then
      match rest with
      | c1 :: rest2 =>
        if 0x80 ≤ c1 ∧ c1 ≤ 0xBF then
          (utf8Decode rest2).map (fun cs => Char.ofNat ((b - 0xC0) * 64 + (c1 - 0x80)) :: cs)
        else none
      | _ => none
    else if b ≤ 0xEF then
      match rest with
      | c1 :: c2 :: rest2 =>
        if (if b = 0xE0 then 0xA0 else 0x80) ≤ c1 ∧ c1 ≤ (if b = 0xED then 0x9F else 0xBF)
            ∧ 0x80 ≤ c2 ∧ c2 ≤ 0xBF then
          (utf8Decode rest2).map
            (fun cs => Char.ofNat ((b - 0xE0) * 4096 + (c1 - 0x80) * 64 + (c2 - 0x80)) :: cs)
        else none
      | _ => none
    else if b ≤ 0xF4 then
      match rest with
      | c1 :: c2 :: c3 :: rest2 =>
        if (if b = 0xF0 then 0x90 else 0x80) ≤ c1 ∧ c1 ≤ (if b = 0xF4 then 0x8F else 0xBF)
            ∧ 0x80 ≤ c2 ∧ c2 ≤ 0xBF ∧ 0x80 ≤ c3 ∧ c3 ≤ 0xBF then
          (utf8Decode rest2).map
            (fun cs => Char.ofNat
              ((b - 0xF0) * 262144 + (c1 - 0x80) * 4096 + (c2 - 0x80) * 64 + (c3 - 0x80)) :: cs)
        else none
      | _ => none
    else none

/-- The segment of `s` after the last occurrence of `sep`, when `sep` occurs
in `s` at all. -/
def afterLastOcc (sep : List Char) : List Char → Option (List Char)
  | [] => none
  | c :: rest =>
    match afterLastOcc sep rest with
    | some r => some r
    | none =>
      if sep.isPrefixOf (c :: rest) then some ((c :: rest).drop sep.length)
      else none

/-- `Scanner.__decode`: base64-decode the token, UTF-8 decode the bytes, and
return the part after the last `chrome-extension://` marker when the marker
occurs (`decoded.split('chrome-extension://')[-1]`); every failure is caught
inside the function and yields `None`. -/
def decode (encoded : JValue) : Option String :=
  match encoded with
  | .str s =>
    match pyB64Decode s.data with
    | none => none
    | some bytes =>
      match utf8Decode bytes with
      | none => none
      | some chars =>
        if List.IsInfix ("chrome-extension://".data) chars then
          some (String.mk ((afterLastOcc ("chrome-extension://".data) chars).getD chars))
        else none
  | _ => none

/-- The `Permission` dataclass: two fields that hold whatever the artifact's
JSON carried, `none` standing for Python `None`. -/
structure Permission where
  permission : Option JValue := none
  origins : Option JValue := none
deriving Repr

/-- `d.get(k, None)` on a dict's bindings, with a JSON `null` value and an
absent key both becoming Python `None`. -/
def dictGetNone (kvs : List (String × JValue)) (k : String) : Option JValue :=
  match alookup kvs k with
  | none => none
  | some .null => none
  | some v => some v

/-- `Permission.parse`: `None` passes through, a dict yields a `Permission`
from its `permissions` / `origins` entries, anything else raises
`TypeError`. -/
def Permission.parse (data : Option JValue) : Except String (Option Permission) :=
  match data with
  | none => .ok none
  | some (.obj kvs) => .ok (some ⟨dictGetNone kvs "permissions", dictGetNone kvs "origins"⟩)
  | some _ => .error "TypeError"

/-- The `Connection` dataclass. -/
structure Connection where
  domain_name : JValue
  active : Bool
deriving Repr

/-- The fixed high-risk permission list of `Scanner.__calculate_risk`. -/
def riskyPermissions : List String :=
  ["clipboardWrite", "<all_urls>", "tabs", "cookies", "://*/"]

/-- `Scanner.__calculate_risk`: iterate the capability permissions (when the
block and the sequence are present) and flag when any element equals a member
of the fixed high-risk list; iterating a non-iterable raises. -/
def calculateRisk (permissions : Option Permission) : Except String String := do
  let risky ←
    match permissions with
    | none => pure false
    | some p =>
      match p.permission with
      | none => pure false
      | some pv => do
        let elems ← pyIter pv
        pure (elems.any fun e =>
          match e with
          | .str s => riskyPermissions.contains s
          | _ => false)
  pure (if risky then "🚩" else "🟢")

/-- `Scanner.__parse_chrome_extension_name`: strip the `__MSG_` / `__`
delimiters, look the key up lower-cased (defaulting to the stripped key
itself), then resolve the two accepted catalog shapes; any other shape
raises. -/
def parseChromeExtensionName (extension_name : String) (messages : List (String × JValue)) :
    Except String String :=
  let name_field : String := pyRemoveSuf (pyRemovePre extension_name "__MSG_") "__"
  let ext_name_obj : JValue := (alookup messages (pyLower name_field)).getD (.str name_field)
  match ext_name_obj with
  | .obj kvs => .ok (pyStr ((alookup kvs "message").getD (.str "")))
  | .str s =>
    match alookup messages s with
    | some temp =>
      if pyTruthy temp then
        match temp with
        | .obj kvs2 => .ok (pyStr ((alookup kvs2 "message").getD .null))
        | _ => .error "AttributeError"
      else .ok s
    | none => .ok s
  | _ => .error "TypeError"

/-- `Scanner.__parse_chrome_extension_description`: same resolution algorithm
as the name parser. -/
def parseChromeExtensionDescription (extension_description : String)
    (messages : List (String × JValue)) : Except String String :=
  let desc_field : String := pyRemoveSuf (pyRemovePre extension_description "__MSG_") "__"
  let ext_desc_obj : JValue := (alookup messages (pyLower desc_field)).getD (.str desc_field)
  match ext_desc_obj with
  | .obj kvs => .ok (pyStr ((alookup kvs "message").getD (.str "")))
  | .str s =>
    match alookup messages s with
    | some temp =>
      if pyTruthy temp then
        match temp with
        | .obj kvs2 => .ok (pyStr ((alookup kvs2 "message").getD .null))
        | _ => .error "AttributeError"
      else .ok s
    | none => .ok s
  | _ => .error "TypeError"

/-- One normalized extension record (the `ExtensionInfo` dataclass).  Fields
filled from JSON artifacts keep the dynamic `JValue` type, since Python
stores whatever the artifact carried; timestamps are modelled by the integer
(epoch) argument from which the `datetime` is built. -/
structure ExtensionInfo where
  username : String
  browser : String
  browser_short : String
  profile : String
  extension_id : JValue
  risk : String
  name : JValue
  version : JValue
  extension_type : JValue
  description : JValue
  creator : JValue
  homepage_url : JValue
  active : JValue
  install_date : Int
  update_date : Int
  path : JValue
  user_permissions : Option Permission
  optional_permissions : Option Permission
  connections : Option (List Connection)
deriving Repr

/-- Outcome of `open(p, encoding='utf-8')` + reading + `json.load` on one
file.  `openError`: `open` raises `OSError` (missing file, permission
denied); `decodeError`: the file's bytes are not valid UTF-8 (a non-UTF-8
file, or one truncated in the middle of a multibyte character), so reading
the text raises `UnicodeDecodeError`; `parseError`: the text is read but is
not valid JSON, so `json.load` raises `json.JSONDecodeError`; `parsed v`:
the document parses to `v`. -/
inductive FileRead where
  | openError : FileRead
  | decodeError : FileRead
  | parseError : FileRead
  | parsed : JValue → FileRead

/-- A snapshot of the filesystem the scanner reads.  Paths are component
lists (`os.path.join` is list append).  `listdir p = none` models a raised
`OSError` (missing directory, permission denied); `fileData p` gives the
outcome of opening, reading and JSON-parsing the file at `p`. -/
structure FS where
  listdir : List String → Option (List String)
  isdir : List String → Bool
  pathExists : List String → Bool
  fileData : List String → FileRead
  ctime : List String → Int
  mtime : List String → Int

/-- `os.path.join` rendered as a single string. -/
def joinPath (p : List String) : String :=
  String.intercalate "/" p

/-- `open` + `json.load`, with the errors each step can raise, none of them
caught at this level. -/
def readJson (fs : FS) (p : List String) : Except String JValue :=
  match fs.fileData p with
  | .openError => .error "OSError"
  | .decodeError => .error "UnicodeDecodeError"
  | .parseError => .error "JSONDecodeError"
  | .parsed v => .ok v

/-- `os.listdir` with its `OSError`. -/
def pyListdir (fs : FS) (p : List String) : Except String (List String) :=
  match fs.listdir p with
  | none => .error "OSError"
  | some l => .ok l

/-- The two candidate locations of the network-state artifact, primary
first. -/
def possibleNetworkStatePaths (profile_path : List String) : List (List String) :=
  [profile_path ++ ["Network", "Network Persistent State"],
   profile_path ++ ["Network Persistent State"]]

/-- Truthiness of `Scanner.__decode`'s result (`None` and the empty string
are falsy). -/
def decodeTruthy (dec : Option String) : Bool :=
  match dec with
  | some s => s ≠ ""
  | none => false

/-- One entry of the `servers` comprehension in
`Scanner.__get_chromium_connections`: evaluate the guard
(`__decode(server.get('anonymization', [None])[0]) and server.get('server')`)
and, when it holds, build the `Connection` with the scheme stripped and the
port split off. -/
def processServerEntry (server : JValue) : Except String (Option Connection) := do
  let anon ← pyGet server "anonymization" (.arr [.null])
  let tok ← pyIndex0 anon
  if decodeTruthy (decode tok) then do
    let sv ← pyGet server "server" (.str "")
    if pyTruthy sv then do
      let s ← asStr sv
      pure (some ⟨.str (pySplitFirst (pyReplace s "https://" "") ':'), true⟩)
    else pure none
  else pure none

/-- One entry of the `broken_alternative_services` comprehension: same guard,
`Connection` built from the raw `host` field with `active=False`. -/
def processBrokenEntry (broken : JValue) : Except String (Option Connection) := do
  let anon ← pyGet broken "anonymization" (.arr [.null])
  let tok ← pyIndex0 anon
  if decodeTruthy (decode tok) then do
    let hv ← pyGet broken "host" (.str "")
    if pyTruthy hv then pure (some ⟨hv, false⟩) else pure none
  else pure none

/-- The list comprehension plus `filter(None, ...)`: process entries in
order, keep the connections of entries whose guard held. -/
def collectEntries (f : JValue → Except String (Option Connection)) :
    List JValue → Except String (List Connection)
  | [] => .ok []
  | x :: xs => do
    let o ← f x
    let rest ← collectEntries f xs
    pure (match o with | some c => c :: rest | none => rest)

/-- The part of `Scanner.__get_chromium_connections` that runs on the parsed
network-state document. -/
def connectionsFromState (network_state : JValue) : Except String (List Connection) := do
  let netv ← pyGet network_state "net" (.obj [])
  let props ← pyGet netv "http_server_properties" (.obj [])
  let serversv ← pyGet props "servers" (.arr [])
  let servers ← pyIter serversv
  let cs1 ← collectEntries processServerEntry servers
  let brokenv ← pyGet props "broken_alternative_services" (.arr [])
  let brokens ← pyIter brokenv
  let cs2 ← collectEntries processBrokenEntry brokens
  pure (cs1 ++ cs2)

/-- `Scanner.__get_chromium_connections`: pick the first existing candidate
path (none existing → `[]`), read and parse it — the `except` clause names
only `json.JSONDecodeError` and `OSError`, so those two yield `[]` while a
`UnicodeDecodeError` from an undecodable file escapes — then extract the
correlated connections. -/
def getChromiumConnections (fs : FS) (profile_path : List String) :
    Except String (List Connection) :=
  match (possibleNetworkStatePaths profile_path).find? (fun p => fs.pathExists p) with
  | none => .ok []
  | some network_state_file =>
    match fs.fileData network_state_file with
    | .openError => .ok []
    | .decodeError => .error "UnicodeDecodeError"
    | .parseError => .ok []
    | .parsed network_state => connectionsFromState network_state

/-- Python `os.listdir(...)[0]`: first directory entry, `IndexError` when
the directory is empty. -/
def listHead0 (l : List String) : Except String String :=
  match l with
  | [] => .error "IndexError"
  | v :: _ => .ok v

/-- The locale-resolution branch of the Chromium loader: when the manifest
name holds a `MSG` placeholder, load the English catalog (preferring `en`,
falling back to `en-US`), resolve name and description through the two
parsers and reclassify the kind as `app`; otherwise keep the manifest
fields and the default kind `extension`. -/
def chromiumNameDescType (fs : FS) (extensions_path : List String)
    (extension_folder extension_version : String) (name0 desc0 : JValue)
    (hasMsg : Bool) : Except String (JValue × JValue × String) :=
  if hasMsg then do
    let mfold0 := extensions_path ++ [extension_folder, extension_version, "_locales", "en"]
    let mfold := if fs.pathExists mfold0 then mfold0
      else extensions_path ++ [extension_folder, extension_version, "_locales", "en-US"]
    let mfiles ← pyListdir fs mfold
    let mfile ← listHead0 mfiles
    let messages ← readJson fs (mfold ++ [mfile])
    let mkvs ← asObj messages
    let nameS ← asStr name0
    let newName ← parseChromeExtensionName nameS mkvs
    let descS ← asStr desc0
    let newDesc ← parseChromeExtensionDescription descS mkvs
    pure (JValue.str newName, JValue.str newDesc, "app")
  else
    pure (name0, desc0, "extension")

/-- The per-extension data `Scanner.__get_chromium_installed_extensions`
derives before constructing the record. -/
structure ChromiumParts where
  extension_version : String
  extension_name : JValue
  extension_description : JValue
  extension_type : String
  extension_creator : JValue
  installT : Int
  updateT : Int
  permOpt : Option Permission
  risk : String
  conns : List Connection
deriving Repr

/-- The body of the extension-folder loop of
`Scanner.__get_chromium_installed_extensions`, up to the data the record is
built from: first version subdirectory, manifest parse, locale resolution
when the name holds a `MSG` placeholder, author, directory timestamps,
permissions, risk and connections. -/
def chromiumFolderParts (fs : FS) (profiles_path : List String) (profile : String)
    (extensions_path : List String) (extension_folder : String) :
    Except String ChromiumParts := do
  let versions ← pyListdir fs (extensions_path ++ [extension_folder])
  let extension_version ← listHead0 versions
  let manifest ← readJson fs
    (extensions_path ++ [extension_folder, extension_version, "manifest.json"])
  let name0 ← pyGet manifest "name" (.str "")
  let desc0 ← pyGet manifest "description" (.str "")
  let hasMsg ← pyInStr "MSG" name0
  let trio ← chromiumNameDescType fs extensions_path extension_folder extension_version
    name0 desc0 hasMsg
  let extension_creator ← pyGet manifest "author" (.str "")
  let mkvs2 ← asObj manifest
  let permsDict : JValue := .obj
    [("permissions", (alookup mkvs2 "permissions").getD .null),
     ("origins", (alookup mkvs2 "hostPermissions").getD .null)]
  let conns ← getChromiumConnections fs (profiles_path ++ [profile])
  let permOpt ← Permission.parse (some permsDict)
  let risk ← calculateRisk permOpt
  pure { extension_version := extension_version
         extension_name := trio.1
         extension_description := trio.2.1
         extension_type := trio.2.2
         extension_creator := extension_creator
         installT := fs.ctime (extensions_path ++ [extension_folder])
         updateT := fs.mtime (extensions_path ++ [extension_folder])
         permOpt := permOpt
         risk := risk
         conns := conns }

/-- The version normalization of the Chromium loader:
`extension_version.replace('_0', '')` (Python `str.replace`, i.e. every
occurrence of the substring is removed, not only a trailing suffix). -/
def normalizeChromiumVersion (extension_version : String) : String :=
  pyReplace extension_version "_0" ""

/-- The `ExtensionInfo(...)` constructor call of the Chromium loader. -/
def mkChromiumRecord (username browser browser_short profile : String)
    (extensions_path : List String) (extension_folder : String)
    (p : ChromiumParts) : ExtensionInfo :=
  { username := username
    browser := browser
    browser_short := browser_short
    profile := profile
    extension_id := .str extension_folder
    risk := p.risk
    name := p.extension_name
    version := .str (normalizeChromiumVersion p.extension_version)
    extension_type := .str p.extension_type
    description := p.extension_description
    creator := p.extension_creator
    homepage_url := .str ""
    active := .bool true
    install_date := p.installT
    update_date := p.updateT
    path := .str (joinPath (extensions_path ++ [extension_folder]))
    user_permissions := p.permOpt
    optional_permissions := some {}
    connections := some p.conns }

/-- One Chromium extension folder mapped to its record. -/
def chromiumFolderRecord (fs : FS) (username browser browser_short profile : String)
    (profiles_path extensions_path : List String) (extension_folder : String) :
    Except String ExtensionInfo :=
  (chromiumFolderParts fs profiles_path profile extensions_path extension_folder).map
    (mkChromiumRecord username browser browser_short profile extensions_path extension_folder)

/-- The records kept when the per-user exception handler fires: both a
normal return and a logged exception leave the accumulated list in
`extension_info_list`. -/
def exceptToList (e : Except (List ExtensionInfo) (List ExtensionInfo)) :
    List ExtensionInfo :=
  match e with
  | .ok l => l
  | .error l => l

/-- Sequential processing of the extension folders with the records appended
so far: the `.error` constructor carries the records already emitted when an
exception interrupts the loop (the per-user handler keeps them). -/
def collectRecords (f : String → Except String ExtensionInfo) :
    List String → Except (List ExtensionInfo) (List ExtensionInfo)
  | [] => .ok []
  | x :: xs =>
    match f x with
    | .error _ => .error []
    | .ok r =>
      match collectRecords f xs with
      | .ok l => .ok (r :: l)
      | .error l => .error (r :: l)

/-- The per-profile part of the Chromium loader: skip profiles without an
`Extensions` directory, exclude `Temp`, sort the folder names, process
each folder. -/
def chromiumProfileRecords (fs : FS) (username browser browser_short : String)
    (profiles_path : List String) (profile : String) :
    Except (List ExtensionInfo) (List ExtensionInfo) :=
  let extensions_path := profiles_path ++ [profile, "Extensions"]
  if fs.pathExists extensions_path then
    match fs.listdir extensions_path with
    | none => .error []
    | some names =>
      let extension_folders :=
        List.insertionSort (fun a b => pyStrLe a b = true) (names.filter (fun e => e ≠ "Temp"))
      collectRecords
        (chromiumFolderRecord fs username browser browser_short profile
          profiles_path extensions_path)
        extension_folders
  else .ok []

/-- Sequential processing of the profiles of one user; an exception in one
profile ends the user's loop but keeps the records already emitted. -/
def collectProfiles (g : String → Except (List ExtensionInfo) (List ExtensionInfo)) :
    List String → Except (List ExtensionInfo) (List ExtensionInfo)
  | [] => .ok []
  | p :: ps =>
    match g p with
    | .error l => .error l
    | .ok l =>
      match collectProfiles g ps with
      | .ok l2 => .ok (l ++ l2)
      | .error l2 => .error (l ++ l2)

/-- `Scanner.__get_chrome_profile_path` on the Linux branch. -/
def getChromeProfilePath (username browser : String) : List String :=
  ["home", username, ".config", pyLower (pyReplace browser " " "-")]

/-- Everything inside the per-user `try` of
`Scanner.__get_chromium_installed_extensions`: read `Local State`, walk
`profile → info_cache` for the profile names, process each profile.  The
`.error` constructor carries the records emitted before the exception. -/
def chromiumUserRecordsE (fs : FS) (username browser browser_short : String) :
    Except (List ExtensionInfo) (List ExtensionInfo) :=
  let profiles_path := getChromeProfilePath username browser
  match fs.fileData (profiles_path ++ ["Local State"]) with
  | .openError => .error []
  | .decodeError => .error []
  | .parseError => .error []
  | .parsed local_state =>
    match local_state with
    | .obj kvs =>
      match (alookup kvs "profile").getD .null with
      | .obj kvs2 =>
        match (alookup kvs2 "info_cache").getD .null with
        | .obj cache =>
          collectProfiles
            (chromiumProfileRecords fs username browser browser_short profiles_path)
            (cache.map (fun kv => kv.1))
        | _ => .error []
      | _ => .error []
    | _ => .error []

/-- The records one user contributes: the per-user `except` logs the
exception and keeps the records accumulated so far. -/
def chromiumUserRecords (fs : FS) (username browser browser_short : String) :
    List ExtensionInfo :=
  exceptToList (chromiumUserRecordsE fs username browser browser_short)

/-- `browser_short` selection of the Chromium loader. -/
def browserShortOf (browser : String) : String :=
  if browser = "Google Chrome" then "Chrome" else "Edge"

/-- `Scanner.__get_chromium_installed_extensions`: per-user processing with
the per-user exception handler; never raises. -/
def getChromiumInstalledExtensions (fs : FS) (usernames : List String)
    (browser : String) : List ExtensionInfo :=
  usernames.flatMap (fun u => chromiumUserRecords fs u browser (browserShortOf browser))

/-- `Scanner.__get_chrome_installed_extensions`. -/
def getChromeInstalledExtensions (fs : FS) (usernames : List String) : List ExtensionInfo :=
  getChromiumInstalledExtensions fs usernames "Google Chrome"

/-- `Scanner.__get_edge_installed_extensions`. -/
def getEdgeInstalledExtensions (fs : FS) (usernames : List String) : List ExtensionInfo :=
  getChromiumInstalledExtensions fs usernames "Microsoft Edge"

/-- `Scanner.__get_firefox_profile_path` on the Linux branch. -/
def getFirefoxProfilePath (username : String) : List String :=
  ["home", username, ".mozilla", "firefox"]

/-- The candidate `extensions.json` files of one user: immediate
subdirectories of the profile root that are directories, keeping the ones
whose `extensions.json` exists, sorted by full path
(`ext_files.sort()`). -/
def firefoxUserExtFiles (fs : FS) (username : String) :
    Except String (List (List String)) := do
  let profiles_path := getFirefoxProfilePath username
  let names ← pyListdir fs profiles_path
  let profiles := (names.filter (fun n => fs.isdir (profiles_path ++ [n]))).map
    (fun n => profiles_path ++ [n])
  let ext_files := (profiles.map (fun p => p ++ ["extensions.json"])).filter
    (fun t => fs.pathExists t)
  pure (List.insertionSort (fun a b => pyStrLe (joinPath a) (joinPath b) = true) ext_files)

/-- Python `l[1]` on a split result (`.split(".")[1]`): `IndexError` when
the name holds no separator. -/
def splitIndex1 (l : List String) : Except String String :=
  match l with
  | _ :: x :: _ => .ok x
  | _ => .error "IndexError"

/-- The per-addon data the Firefox loader derives before constructing the
record. -/
structure FirefoxParts where
  profile : String
  extension_id : JValue
  risk : String
  name : JValue
  version : JValue
  extension_type : JValue
  description : JValue
  creator : JValue
  homepage_url : JValue
  active : JValue
  installMs : Int
  updateMs : Int
  pathv : JValue
  user_permissions : Option Permission
  optional_permissions : Option Permission
deriving Repr

/-- The body of the addon loop of
`Scanner.__get_firefox_installed_extensions`, in the evaluation order of the
`ExtensionInfo(...)` constructor arguments; none of the raised exceptions is
caught anywhere in the Firefox loader. -/
def firefoxAddonParts (ext_file : List String) (addon : JValue) :
    Except String FirefoxParts := do
  let base := (ext_file.dropLast).getLastD ""
  let profile ← splitIndex1 (pySplit base '.')
  let id ← pyGet addon "id" (.str "")
  let permsOpt ← pyGetNone addon "permissions"
  let permParsed ← Permission.parse permsOpt
  let risk ← calculateRisk permParsed
  let dl ← pyGet addon "defaultLocale" (.obj [])
  let name ← pyGet dl "name" (.str "")
  let version ← pyGet addon "version" (.str "")
  let etype ← pyGet addon "type" (.str "")
  let description ← pyGet dl "description" (.str "")
  let creator ← pyGet dl "creator" (.str "")
  let homepage ← pyGet dl "homepageURL" (.str "")
  let active ← pyGet addon "active" (.bool false)
  let iv ← pyGet addon "installDate" (.num 0)
  let installMs ← pyFloatInt iv
  let uv ← pyGet addon "updateDate" (.num 0)
  let updateMs ← pyFloatInt uv
  let pathv ← pyGet addon "path" (.str "")
  let upOpt ← pyGetNone addon "userPermissions"
  let up ← Permission.parse upOpt
  let opOpt ← pyGetNone addon "optionalPermissions"
  let op ← Permission.parse opOpt
  pure { profile := profile
         extension_id := id
         risk := risk
         name := name
         version := version
         extension_type := etype
         description := description
         creator := creator
         homepage_url := homepage
         active := active
         installMs := installMs
         updateMs := updateMs
         pathv := pathv
         user_permissions := up
         optional_permissions := op }

/-- The `ExtensionInfo(...)` constructor call of the Firefox loader; the
`connections` keyword is never passed, so the dataclass default `None`
applies.  The two timestamps stand for
`datetime.fromtimestamp(ms / 1000)`. -/
def mkFirefoxRecord (username : String) (p : FirefoxParts) : ExtensionInfo :=
  { username := username
    browser := "Mozilla Firefox"
    browser_short := "Firefox"
    profile := p.profile
    extension_id := p.extension_id
    risk := p.risk
    name := p.name
    version := p.version
    extension_type := p.extension_type
    description := p.description
    creator := p.creator
    homepage_url := p.homepage_url
    active := p.active
    install_date := p.installMs
    update_date := p.updateMs
    path := p.pathv
    user_permissions := p.user_permissions
    optional_permissions := p.optional_permissions
    connections := none }

/-- One Firefox addon entry mapped to its record. -/
def firefoxAddonRecord (username : String) (ext_file : List String) (addon : JValue) :
    Except String ExtensionInfo :=
  (firefoxAddonParts ext_file addon).map (mkFirefoxRecord username)

/-- The addon loop of one `extensions.json` file; exceptions propagate. -/
def firefoxRecordsOfAddons (username : String) (ext_file : List String) :
    List JValue → Except String (List ExtensionInfo)
  | [] => .ok []
  | a :: rest => do
    let r ← firefoxAddonRecord username ext_file a
    let l ← firefoxRecordsOfAddons username ext_file rest
    pure (r :: l)

/-- One `extensions.json` file: parse it, read the `addons` sequence, map
each addon; exceptions propagate. -/
def firefoxRecordsOfFile (fs : FS) (username : String) (ext_file : List String) :
    Except String (List ExtensionInfo) := do
  let data ← readJson fs ext_file
  let addons ← pyGet data "addons" (.arr [])
  let lst ← pyIter addons
  firefoxRecordsOfAddons username ext_file lst

/-- The file loop of one user; exceptions propagate. -/
def firefoxRecordsOfFiles (fs : FS) (username : String) :
    List (List String) → Except String (List ExtensionInfo)
  | [] => .ok []
  | f :: rest => do
    let l ← firefoxRecordsOfFile fs username f
    let l2 ← firefoxRecordsOfFiles fs username rest
    pure (l ++ l2)

/-- The records of one user's Firefox profiles; exceptions propagate. -/
def firefoxUserRecords (fs : FS) (username : String) :
    Except String (List ExtensionInfo) := do
  let files ← firefoxUserExtFiles fs username
  firefoxRecordsOfFiles fs username files

/-- `Scanner.__get_firefox_installed_extensions`: the user loop has no
exception handler, so a failure for any user aborts the whole loader and the
accumulated records are lost with the raised exception. -/
def getFirefoxInstalledExtensions (fs : FS) :
    List String → Except String (List ExtensionInfo)
  | [] => .ok []
  | u :: us => do
    let l ← firefoxUserRecords fs u
    let l2 ← getFirefoxInstalledExtensions fs us
    pure (l ++ l2)

/-- The scan-scoped state computed once in `Scanner.__init__`: which browser
families were detected. -/
structure ScanContext where
  has_firefox : Bool
  has_chrome : Bool
  has_edge : Bool

/-- `Scanner.get_extension_info`: invoke each installed browser's loader over
the user list and concatenate Firefox, then Chrome, then Edge records.  An
exception escaping the Firefox loader propagates to the caller. -/
def getExtensionInfo (sc : ScanContext) (fs : FS) (user_list : List String) :
    Except String (List ExtensionInfo) :=
  (if sc.has_firefox then getFirefoxInstalledExtensions fs user_list else pure []) >>=
    fun ff =>
      pure (ff ++
        (if sc.has_chrome then getChromeInstalledExtensions fs user_list else []) ++
        (if sc.has_edge then getEdgeInstalledExtensions fs user_list else []))

/-- The claim's notion of a high-risk permission (used to compare the spec's
words with the code): a member of the fixed set **or** any permission
containing the substring `://*/`. -/
def specHighRiskPermission (p : String) : Bool :=
  riskyPermissions.contains p || strContains p "://*/"

/-- The claim's version normalization, following the spec's words: strip
only the trailing `_0` packaging suffix (for comparison with the code's
`replace`). -/
def specVersionNormalize (extension_version : String) : String :=
  pyRemoveSuf extension_version "_0"

/-- Order on record identifiers as string values. -/
def jstrLe (a b : JValue) : Prop :=
  ∃ s t, a = .str s ∧ b = .str t ∧ pyStrLe s t = true

/-- Fixture: the single addon of the demo user `bob`. -/
def addonBob : JValue :=
  .obj [("id", .str "uBlock0@raymondhill.net")]

/-- Fixture: `extensions.json` of bob's Firefox profile. -/
def ffDataBob : JValue :=
  .obj [("addons", .arr [addonBob])]

/-- Fixture: a manifest declaring the high-risk `tabs` permission. -/
def manifestAlpha : JValue :=
  .obj [("name", .str "Alpha"), ("permissions", .arr [.str "tabs"])]

/-- Fixture: a manifest declaring no permissions. -/
def manifestBeta : JValue :=
  .obj [("name", .str "Beta")]

/-- Fixture: bob's Chromium `Local State` with one profile `Default`. -/
def localStateBob : JValue :=
  .obj [("profile", .obj [("info_cache", .obj [("Default", .null)])])]

/-- Fixture: bob's Chromium user-data root. -/
def chromeRootBob : List String :=
  ["home", "bob", ".config", "google-chrome"]

/-- Fixture: bob's `Extensions` directory of the `Default` profile. -/
def extRootBob : List String :=
  chromeRootBob ++ ["Default", "Extensions"]

/-- Fixture filesystem: user `alice`'s artifacts are unreadable (her Firefox
profile root raises `OSError`, her Chromium `Local State` is missing), user
`bob` has one valid Firefox profile with one addon and one Chromium profile
with extension folders `extB`, `extA` and `Temp`. -/
def fsDemo : FS :=
  { listdir := fun p =>
      if p = ["home", "alice", ".mozilla", "firefox"] then none
      else if p = ["home", "bob", ".mozilla", "firefox"] then some ["abc.default"]
      else if p = extRootBob then some ["extB", "extA", "Temp"]
      else if p = extRootBob ++ ["extA"] then some ["1.0_0"]
      else if p = extRootBob ++ ["extB"] then some ["2.0_0"]
      else none
    isdir := fun p =>
      if p = ["home", "bob", ".mozilla", "firefox", "abc.default"] then true else false
    pathExists := fun p =>
      if p = ["home", "bob", ".mozilla", "firefox", "abc.default", "extensions.json"] then true
      else if p = extRootBob then true
      else false
    fileData := fun p =>
      if p = ["home", "bob", ".mozilla", "firefox", "abc.default", "extensions.json"] then
        .parsed ffDataBob
      else if p = chromeRootBob ++ ["Local State"] then .parsed localStateBob
      else if p = extRootBob ++ ["extA", "1.0_0", "manifest.json"] then .parsed manifestAlpha
      else if p = extRootBob ++ ["extB", "2.0_0", "manifest.json"] then .parsed manifestBeta
      else .openError
    ctime := fun _ => 0
    mtime := fun _ => 0 }

/-- Fixture: a parsed network-state document with one `servers` entry whose
`anonymization` list is present but empty. -/
def stateEmptyAnon : JValue :=
  .obj [("net", .obj [("http_server_properties", .obj
    [("servers", .arr [.obj
      [("server", .str "https://x.example"), ("anonymization", .arr [])]])])])]

/-- Fixture: a profile whose network-state file exists at the primary path
but holds bytes that are not valid UTF-8 (e.g. a file truncated in the
middle of a multibyte character), so reading it raises
`UnicodeDecodeError`. -/
def fsBadEncoding : FS :=
  { listdir := fun _ => none
    isdir := fun _ => false
    pathExists := fun p =>
      if p = ["profile", "Network", "Network Persistent State"] then true else false
    fileData := fun p =>
      if p = ["profile", "Network", "Network Persistent State"] then .decodeError
      else .openError
    ctime := fun _ => 0
    mtime := fun _ => 0 }

/-- Fixture locale catalog: direct structured entry. -/
def catDirect : List (String × JValue) :=
  [("foo", .obj [("message", .str "Bar")])]

/-- Fixture locale catalog: nested string key that resolves. -/
def catNested : List (String × JValue) :=
  [("foo", .str "other_key"), ("other_key", .obj [("message", .str "Baz")])]

/-- Fixture locale catalog: nested string key whose target is absent. -/
def catDangling : List (String × JValue) :=
  [("foo", .str "other_key")]

/-- A placeholder record, used only to take the head of computed record
lists in concrete instantiations. -/
def dummyRecord : ExtensionInfo :=
  { username := "", browser := "", browser_short := "", profile := ""
    extension_id := .null, risk := "", name := .null, version := .null
    extension_type := .null, description := .null, creator := .null
    homepage_url := .null, active := .null, install_date := 0, update_date := 0
    path := .null, user_permissions := none, optional_permissions := none
    connections := none }

theorem ok_bind {ε α β : Type} (a : α) (f : α → Except ε β) :
    (Except.ok a >>= f) = f a := rfl

theorem error_bind {ε α β : Type} (e : ε) (f : α → Except ε β) :
    ((Except.error e : Except ε α) >>= f) = .error e := rfl

theorem pure_eq_ok {ε α : Type} (a : α) : (pure a : Except ε α) = .ok a := rfl

theorem exceptBind_ok {ε α β : Type} {e : Except ε α} {f : α → Except ε β} {r : β}
    (h : (e >>= f) = .ok r) : ∃ a, e = .ok a ∧ f a = .ok r := by
  cases e with
  | error s => rw [error_bind] at h; cases h
  | ok a => rw [ok_bind] at h; exact ⟨a, rfl, h⟩

theorem exceptMap_ok {ε α β : Type} {f : α → β} {e : Except ε α} {r : β}
    (h : Except.map f e = .ok r) : ∃ a, e = .ok a ∧ r = f a := by
  cases e with
  | error s => simp [Except.map] at h
  | ok a => simp [Except.map] at h; exact ⟨a, rfl, h.symm⟩

theorem chromiumFolderParts_conns {fs : FS} {profiles_path : List String} {profile : String}
    {extensions_path : List String} {folder : String} {p : ChromiumParts}
    (h : chromiumFolderParts fs profiles_path profile extensions_path folder = .ok p) :
    getChromiumConnections fs (profiles_path ++ [profile]) = .ok p.conns := by
  unfold chromiumFolderParts at h
  obtain ⟨versions, h1, h⟩ := exceptBind_ok h
  obtain ⟨ev, h2, h⟩ := exceptBind_ok h
  obtain ⟨manifest, h3, h⟩ := exceptBind_ok h
  obtain ⟨name0, h4, h⟩ := exceptBind_ok h
  obtain ⟨desc0, h5, h⟩ := exceptBind_ok h
  obtain ⟨hasMsg, h6, h⟩ := exceptBind_ok h
  obtain ⟨trio, h7, h⟩ := exceptBind_ok h
  obtain ⟨creator, h8, h⟩ := exceptBind_ok h
  obtain ⟨mkvs2, h9, h⟩ := exceptBind_ok h
  obtain ⟨conns, hconns, h⟩ := exceptBind_ok h
  obtain ⟨permOpt, h10, h⟩ := exceptBind_ok h
  obtain ⟨risk, h11, h⟩ := exceptBind_ok h
  rw [pure_eq_ok] at h
  cases h
  exact hconns

theorem chromiumFolderRecord_fields {fs : FS}
    {username browser browser_short profile : String}
    {profiles_path extensions_path : List String} {folder : String} {r : ExtensionInfo}
    (h : chromiumFolderRecord fs username browser browser_short profile
        profiles_path extensions_path folder = .ok r) :
    r.active = .bool true ∧ r.homepage_url = .str "" ∧
    r.optional_permissions = some { } ∧ r.extension_id = .str folder ∧
    r.profile = profile ∧ r.username = username ∧
    ∃ c, getChromiumConnections fs (profiles_path ++ [profile]) = .ok c ∧
      r.connections = some c := by
  unfold chromiumFolderRecord at h
  obtain ⟨p, hp, hr⟩ := exceptMap_ok h
  subst hr
  exact ⟨rfl, rfl, rfl, rfl, rfl, rfl, p.conns, chromiumFolderParts_conns hp, rfl⟩

theorem collectRecords_toList_cons (f : String → Except String ExtensionInfo)
    (x : String) (xs : List String) :
    exceptToList (collectRecords f (x :: xs)) =
      match f x with
      | .error _ => []
      | .ok r => r :: exceptToList (collectRecords f xs) := by
  cases hfx : f x with
  | error e => simp [collectRecords, hfx, exceptToList]
  | ok r =>
    cases hrec : collectRecords f xs with
    | ok l => simp [collectRecords, hfx, hrec, exceptToList]
    | error l => simp [collectRecords, hfx, hrec, exceptToList]

theorem collectRecords_mem {f : String → Except String ExtensionInfo}
    {l : List String} {r : ExtensionInfo}
    (h : r ∈ exceptToList (collectRecords f l)) : ∃ x ∈ l, f x = .ok r := by
  induction l with
  | nil => simp [collectRecords, exceptToList] at h
  | cons x xs ih =>
    rw [collectRecords_toList_cons] at h
    cases hfx : f x with
    | error e => rw [hfx] at h; simp at h
    | ok r0 =>
      rw [hfx] at h
      rcases List.mem_cons.mp h with h0 | h1
      · exact ⟨x, List.mem_cons_self x xs, by rw [hfx, h0]⟩
      · obtain ⟨y, hy, hfy⟩ := ih h1
        exact ⟨y, List.mem_cons_of_mem x hy, hfy⟩

theorem collectRecords_ids {f : String → Except String ExtensionInfo} {l : List String}
    (hf : ∀ x r, f x = .ok r → r.extension_id = .str x) :
    ∃ l', l' <+: l ∧
      (exceptToList (collectRecords f l)).map (fun r => r.extension_id) =
        l'.map JValue.str := by
  induction l with
  | nil => exact ⟨[], List.nil_prefix, rfl⟩
  | cons x xs ih =>
    rw [collectRecords_toList_cons]
    cases hfx : f x with
    | error e => exact ⟨[], List.nil_prefix, rfl⟩
    | ok r0 =>
      obtain ⟨l', hpre, heq⟩ := ih
      obtain ⟨t, ht⟩ := hpre
      refine ⟨x :: l', ⟨t, by simp [ht]⟩, ?_⟩
      simp [heq, hf x r0 hfx]

theorem collectProfiles_toList_cons
    (g : String → Except (List ExtensionInfo) (List ExtensionInfo))
    (p : String) (ps : List String) :
    exceptToList (collectProfiles g (p :: ps)) =
      match g p with
      | .error l => l
      | .ok l => l ++ exceptToList (collectProfiles g ps) := by
  cases hgp : g p with
  | error l => simp [collectProfiles, hgp, exceptToList]
  | ok l =>
    cases hrec : collectProfiles g ps with
    | ok l2 => simp [collectProfiles, hgp, hrec, exceptToList]
    | error l2 => simp [collectProfiles, hgp, hrec, exceptToList]

theorem collectProfiles_mem
    {g : String → Except (List ExtensionInfo) (List ExtensionInfo)}
    {ps : List String} {r : ExtensionInfo}
    (h : r ∈ exceptToList (collectProfiles g ps)) :
    ∃ p ∈ ps, r ∈ exceptToList (g p) := by
  induction ps with
  | nil => simp [collectProfiles, exceptToList] at h
  | cons p ps ih =>
    rw [collectProfiles_toList_cons] at h
    cases hgp : g p with
    | error l =>
      rw [hgp] at h
      exact ⟨p, List.mem_cons_self p ps, by rw [hgp]; exact h⟩
    | ok l =>
      rw [hgp] at h
      rcases List.mem_append.mp h with h0 | h1
      · exact ⟨p, List.mem_cons_self p ps, by rw [hgp]; exact h0⟩
      · obtain ⟨q, hq, hrq⟩ := ih h1
        exact ⟨q, List.mem_cons_of_mem p hq, hrq⟩

theorem chromiumProfileRecords_mem {fs : FS}
    {username browser browser_short : String} {profiles_path : List String}
    {profile : String} {r : ExtensionInfo}
    (h : r ∈ exceptToList (chromiumProfileRecords fs username browser browser_short
        profiles_path profile)) :
    ∃ folder, folder ≠ "Temp" ∧
      chromiumFolderRecord fs username browser browser_short profile profiles_path
        (profiles_path ++ [profile, "Extensions"]) folder = .ok r := by
  simp only [chromiumProfileRecords] at h
  split at h
  · split at h
    · simp [exceptToList] at h
    · obtain ⟨x, hx, hfx⟩ := collectRecords_mem h
      have hx' := (List.mem_insertionSort _).mp hx
      obtain ⟨_, hpred⟩ := List.mem_filter.mp hx'
      exact ⟨x, by simpa using hpred, hfx⟩
  · simp [exceptToList] at h

theorem chromiumUserRecords_mem {fs : FS} {username browser browser_short : String}
    {r : ExtensionInfo}
    (h : r ∈ chromiumUserRecords fs username browser browser_short) :
    ∃ profile, r ∈ exceptToList (chromiumProfileRecords fs username browser browser_short
      (getChromeProfilePath username browser) profile) := by
  simp only [chromiumUserRecords, chromiumUserRecordsE] at h
  repeat' split at h
  all_goals try (simp only [exceptToList] at h; exact absurd h (List.not_mem_nil r))
  obtain ⟨p, _, hp⟩ := collectProfiles_mem h
  exact ⟨p, hp⟩

theorem getChromiumInstalledExtensions_mem {fs : FS} {usernames : List String}
    {browser : String} {r : ExtensionInfo}
    (h : r ∈ getChromiumInstalledExtensions fs usernames browser) :
    ∃ u ∈ usernames, r ∈ chromiumUserRecords fs u browser (browserShortOf browser) := by
  simpa [getChromiumInstalledExtensions] using List.mem_flatMap.mp (by
    simpa [getChromiumInstalledExtensions] using h)

theorem firefoxAddonRecord_connections {username : String} {ext_file : List String}
    {addon : JValue} {r : ExtensionInfo}
    (h : firefoxAddonRecord username ext_file addon = .ok r) : r.connections = none := by
  unfold firefoxAddonRecord at h
  obtain ⟨p, hp, hr⟩ := exceptMap_ok h
  subst hr
  rfl

theorem firefoxRecordsOfAddons_connections {username : String} {ext_file : List String} :
    ∀ {as : List JValue} {L : List ExtensionInfo},
      firefoxRecordsOfAddons username ext_file as = .ok L →
      ∀ r ∈ L, r.connections = none := by
  intro as
  induction as with
  | nil =>
    intro L h r hr
    unfold firefoxRecordsOfAddons at h
    cases h
    cases hr
  | cons a rest ih =>
    intro L h r hr
    unfold firefoxRecordsOfAddons at h
    obtain ⟨r0, h1, h⟩ := exceptBind_ok h
    obtain ⟨l, h2, h⟩ := exceptBind_ok h
    rw [pure_eq_ok] at h
    cases h
    rcases List.mem_cons.mp hr with h0 | h1'
    · subst h0; exact firefoxAddonRecord_connections h1
    · exact ih h2 r h1'

theorem firefoxRecordsOfFile_connections {fs : FS} {username : String}
    {ext_file : List String} {L : List ExtensionInfo}
    (h : firefoxRecordsOfFile fs username ext_file = .ok L) :
    ∀ r ∈ L, r.connections = none := by
  unfold firefoxRecordsOfFile at h
  obtain ⟨data, h1, h⟩ := exceptBind_ok h
  obtain ⟨addons, h2, h⟩ := exceptBind_ok h
  obtain ⟨lst, h3, h⟩ := exceptBind_ok h
  exact firefoxRecordsOfAddons_connections h

theorem firefoxRecordsOfFiles_connections {fs : FS} {username : String} :
    ∀ {files : List (List String)} {L : List ExtensionInfo},
      firefoxRecordsOfFiles fs username files = .ok L →
      ∀ r ∈ L, r.connections = none := by
  intro files
  induction files with
  | nil =>
    intro L h r hr
    unfold firefoxRecordsOfFiles at h
    cases h
    cases hr
  | cons f rest ih =>
    intro L h r hr
    unfold firefoxRecordsOfFiles at h
    obtain ⟨l, h1, h⟩ := exceptBind_ok h
    obtain ⟨l2, h2, h⟩ := exceptBind_ok h
    rw [pure_eq_ok] at h
    cases h
    rcases List.mem_append.mp hr with h0 | h1'
    · exact firefoxRecordsOfFile_connections h1 r h0
    · exact ih h2 r h1'

theorem firefoxUserRecords_connections {fs : FS} {username : String}
    {L : List ExtensionInfo} (h : firefoxUserRecords fs username = .ok L) :
    ∀ r ∈ L, r.connections = none := by
  unfold firefoxUserRecords at h
  obtain ⟨files, h1, h⟩ := exceptBind_ok h
  exact firefoxRecordsOfFiles_connections h

theorem getFirefox_connections {fs : FS} :
    ∀ {users : List String} {L : List ExtensionInfo},
      getFirefoxInstalledExtensions fs users = .ok L →
      ∀ r ∈ L, r.connections = none := by
  intro users
  induction users with
  | nil =>
    intro L h r hr
    unfold getFirefoxInstalledExtensions at h
    cases h
    cases hr
  | cons u rest ih =>
    intro L h r hr
    unfold getFirefoxInstalledExtensions at h
    obtain ⟨l, h1, h⟩ := exceptBind_ok h
    obtain ⟨l2, h2, h⟩ := exceptBind_ok h
    rw [pure_eq_ok] at h
    cases h
    rcases List.mem_append.mp hr with h0 | h1'
    · exact firefoxUserRecords_connections h1 r h0
    · exact ih h2 r h1'

theorem strLeB_total : ∀ as bs : List Char, strLeB as bs = true ∨ strLeB bs as = true := by
  intro as
  induction as with
  | nil => intro bs; left; simp [strLeB]
  | cons a as ih =>
    intro bs
    cases bs with
    | nil => right; simp [strLeB]
    | cons b bs' =>
      by_cases hab : a.toNat < b.toNat
      · left; simp [strLeB, hab]
      · by_cases hba : b.toNat < a.toNat
        · right; simp [strLeB, hba, hab]
        · rcases ih bs' with h | h
          · left; simp [strLeB, hab, hba, h]
          · right; simp [strLeB, hab, hba, h]

theorem strLeB_trans : ∀ as bs cs : List Char,
    strLeB as bs = true → strLeB bs cs = true → strLeB as cs = true := by
  intro as
  induction as with
  | nil => intro bs cs _ _; simp [strLeB]
  | cons a as ih =>
    intro bs cs h1 h2
    cases bs with
    | nil => simp [strLeB] at h1
    | cons b bs' =>
      cases cs with
      | nil => simp [strLeB] at h2
      | cons c cs' =>
        simp only [strLeB] at h1 h2 ⊢
        split_ifs at h1 h2 ⊢ <;> try rfl
        all_goals try omega
        exact ih bs' cs' h1 h2

theorem pyStrLe_total (a b : String) : pyStrLe a b = true ∨ pyStrLe b a = true :=
  strLeB_total a.data b.data

theorem pyStrLe_trans {a b c : String} (h1 : pyStrLe a b = true)
    (h2 : pyStrLe b c = true) : pyStrLe a c = true :=
  strLeB_trans a.data b.data c.data h1 h2

theorem pyReplaceFuel_append_suffix :
    ∀ (l : List Char) (fuel : Nat), l.length + 2 ≤ fuel →
      ¬ (['_', '0'] <:+: l) →
      pyReplaceFuel ['_', '0'] [] fuel (l ++ ['_', '0']) = l := by
  intro l
  induction l with
  | nil =>
    intro fuel hfuel _
    match fuel, hfuel with
    | f + 1, _ => simp [pyReplaceFuel, List.isPrefixOf]
  | cons c l' ih =>
    intro fuel hfuel hinf
    match fuel, hfuel with
    | f + 1, hfuel =>
      have hnotpre : List.isPrefixOf ['_', '0'] (c :: (l' ++ ['_', '0'])) = false := by
        cases l' with
        | nil => simp [List.isPrefixOf]
        | cons d l'' =>
          by_cases hc : c = '_'
          · by_cases hd : d = '0'
            · exfalso
              exact hinf ⟨[], l'', by simp [hc, hd]⟩
            · have hbd : ('0' == d) = false := beq_eq_false_iff_ne.mpr (fun h => hd h.symm)
              simp [List.isPrefixOf, hbd]
          · have hbc : ('_' == c) = false := beq_eq_false_iff_ne.mpr (fun h => hc h.symm)
            simp [List.isPrefixOf, hbc]
      have hrec := ih f (by simpa using Nat.lt_succ_iff.mp (Nat.lt_of_lt_of_le
          (Nat.lt_succ_self _) hfuel))
      simp only [List.cons_append, pyReplaceFuel, hnotpre]
      rw [if_neg (by simp [hnotpre])]
      congr 1
      exact ih f (by simp at hfuel; omega)
        (fun hx => hinf (hx.trans (List.suffix_cons c l').isInfix))

theorem calculateRisk_eq (ps : List String) (o : Option JValue) :
    calculateRisk (some ⟨some (.arr (ps.map .str)), o⟩) =
      .ok (if ps.any (fun p => riskyPermissions.contains p) then "🚩" else "🟢") := by
  simp [calculateRisk, pyIter, ok_bind, pure_eq_ok, List.any_map, Function.comp]

/-- C1 (counterexample): on a filesystem where user `alice`'s Firefox profile
root cannot be listed but user `bob` has a valid profile with one addon, the
Firefox loader raises (`OSError`) for the pair instead of returning bob's
record, although bob alone yields one record; the Chromium loader on the same
filesystem does skip alice and returns bob's two records. -/
theorem c1_counterexample :
    getFirefoxInstalledExtensions fsDemo ["alice", "bob"] = .error "OSError" ∧
    (getFirefoxInstalledExtensions fsDemo ["bob"]).map List.length = .ok 1 ∧
    (getChromiumInstalledExtensions fsDemo ["alice", "bob"] "Google Chrome").length = 2 :=
  ⟨rfl, rfl, rfl⟩

/-- C1 (amended): per-user failure isolation holds for the Chromium loader —
its result over any user list splits as the concatenation of the per-user
results, so an exception while processing one user never affects the records
of other users and is never propagated; the Firefox loader has no such
handler (see the counterexample). -/
theorem c1_chromium_isolation (fs : FS) (users1 users2 : List String) (browser : String) :
    getChromiumInstalledExtensions fs (users1 ++ users2) browser =
      getChromiumInstalledExtensions fs users1 browser ++
      getChromiumInstalledExtensions fs users2 browser := by
  simp [getChromiumInstalledExtensions]

/-- C2 (counterexample): the permission `http://*/*` contains the substring
`://*/`, so the claim classifies it Flagged, but `__calculate_risk` tests
exact membership in the fixed list and returns Clear. -/
theorem c2_counterexample :
    specHighRiskPermission "http://*/*" = true ∧
    calculateRisk (some ⟨some (.arr [.str "http://*/*"]), none⟩) = .ok "🟢" ∧
    ("🟢" : String) ≠ "🚩" :=
  ⟨rfl, rfl, by decide⟩


/-- C2 (amended): the classifier returns Flagged iff the capability-permission
sequence contains an element **equal** to one of `clipboardWrite`,
`<all_urls>`, `tabs`, `cookies` or the literal string `://*/` (no substring
matching is performed); an absent permission block, and an absent capability
sequence, classify Clear. -/
theorem c2_risk_exact_membership :
    (∀ (ps : List String) (o : Option JValue),
      (calculateRisk (some ⟨some (.arr (ps.map .str)), o⟩) = .ok "🚩" ↔
        ∃ p ∈ ps, p ∈ riskyPermissions) ∧
      (calculateRisk (some ⟨some (.arr (ps.map .str)), o⟩) = .ok "🟢" ↔
        ∀ p ∈ ps, p ∉ riskyPermissions)) ∧
    calculateRisk none = .ok "🟢" ∧
    (∀ o : Option JValue, calculateRisk (some ⟨none, o⟩) = .ok "🟢") := by
  refine ⟨fun ps o => ⟨?_, ?_⟩, rfl, fun o => rfl⟩
  · rw [calculateRisk_eq]
    by_cases h : (ps.any fun p => riskyPermissions.contains p) = true
    · rw [if_pos h]
      constructor
      · intro _
        obtain ⟨p, hp, hcont⟩ := List.any_eq_true.mp h
        exact ⟨p, hp, by simpa using hcont⟩
      · intro _; rfl
    · rw [if_neg h]
      constructor
      · intro he; injection he with he; exact absurd he (by decide)
      · rintro ⟨p, hp, hmem⟩
        exact absurd (List.any_eq_true.mpr ⟨p, hp, by simpa using hmem⟩) h
  · rw [calculateRisk_eq]
    by_cases h : (ps.any fun p => riskyPermissions.contains p) = true
    · rw [if_pos h]
      constructor
      · intro he; injection he with he; exact absurd he (by decide)
      · intro hall
        obtain ⟨p, hp, hcont⟩ := List.any_eq_true.mp h
        exact absurd (by simpa using hcont) (hall p hp)
    · rw [if_neg h]
      constructor
      · intro _ p hp hmem
        exact absurd (List.any_eq_true.mpr ⟨p, hp, by simpa using hmem⟩) h
      · intro _; rfl

/-- C2 (witness): the exact-membership classification applied at the
singleton sequence `[tabs]`, which is Flagged. -/
theorem c2_risk_exact_membership_witness :
    calculateRisk (some ⟨some (.arr (["tabs"].map .str)), none⟩) = .ok "🚩" :=
  (c2_risk_exact_membership.1 ["tabs"] none).1.mpr
    ⟨"tabs", List.mem_singleton_self "tabs", by decide⟩

/-- C8 (counterexample): the empty sequence is Clear, and adding the
permission `http://*/*` — high-risk under the claim's substring reading —
leaves it Clear, so the claimed monotonicity over the substring-inclusive
high-risk set fails. -/
theorem c8_counterexample :
    calculateRisk (some ⟨some (.arr (([] : List String).map .str)), none⟩) = .ok "🟢" ∧
    specHighRiskPermission "http://*/*" = true ∧
    calculateRisk (some ⟨some (.arr ((([] : List String) ++ ["http://*/*"]).map .str)),
      none⟩) = .ok "🟢" :=
  ⟨rfl, rfl, rfl⟩

/-- C8 (amended): monotonicity holds for the exact five-string high-risk
list: adding a member of `riskyPermissions` to any sequence yields Flagged
(hence never Clear); a sequence built only from permissions outside that list
is Clear; an absent permission block is Clear. -/
theorem c8_risk_monotone :
    (∀ (ps : List String) (r : String) (o o' : Option JValue),
      calculateRisk (some ⟨some (.arr (ps.map .str)), o⟩) = .ok "🟢" →
      r ∈ riskyPermissions →
      calculateRisk (some ⟨some (.arr ((ps ++ [r]).map .str)), o'⟩) = .ok "🚩") ∧
    (∀ (ps : List String) (o : Option JValue), (∀ p ∈ ps, p ∉ riskyPermissions) →
      calculateRisk (some ⟨some (.arr (ps.map .str)), o⟩) = .ok "🟢") ∧
    calculateRisk none = .ok "🟢" := by
  refine ⟨?_, ?_, rfl⟩
  · intro ps r o o' _ hr
    rw [calculateRisk_eq]
    rw [if_pos]
    exact List.any_eq_true.mpr ⟨r, List.mem_append_right ps (List.mem_singleton_self r),
      by simpa using hr⟩
  · intro ps o hall
    have hne : ¬ ((ps.any fun p => riskyPermissions.contains p) = true) := by
      intro hany
      obtain ⟨p, hp, hcont⟩ := List.any_eq_true.mp hany
      exact hall p hp (by simpa using hcont)
    rw [calculateRisk_eq, if_neg hne]

/-- C8 (witness): monotonicity applied at the Clear sequence `[history]` and
the high-risk member `cookies`. -/
theorem c8_risk_monotone_witness :
    calculateRisk (some ⟨some (.arr ((["history"] ++ ["cookies"]).map .str)), none⟩) =
      .ok "🚩" :=
  c8_risk_monotone.1 ["history"] "cookies" none none rfl (by decide)

/-- C5 (counterexample): a successfully parsed network-state document with a
`servers` entry whose `anonymization` list is present but empty makes
extraction raise an `IndexError` (`server.get('anonymization', [None])[0]`),
so entry-level totality fails. -/
theorem c5_counterexample :
    connectionsFromState stateEmptyAnon = .error "IndexError" := rfl

/-- C5 (amended): per entry, an absent `anonymization` list is skipped as
not correlated (the `[None]` default decodes to `None`), a present non-empty
list whose first token fails to decode is skipped as not correlated (the
failure is swallowed inside `__decode`), but a present **empty** list raises
an `IndexError` that propagates out of extraction to the per-user handler. -/
theorem c5_entry_processing :
    (∀ kvs, alookup kvs "anonymization" = none →
      processServerEntry (.obj kvs) = .ok none ∧
      processBrokenEntry (.obj kvs) = .ok none) ∧
    (∀ kvs (t : JValue) (ts : List JValue),
      alookup kvs "anonymization" = some (.arr (t :: ts)) → decode t = none →
      processServerEntry (.obj kvs) = .ok none ∧
      processBrokenEntry (.obj kvs) = .ok none) ∧
    (∀ kvs, alookup kvs "anonymization" = some (.arr []) →
      processServerEntry (.obj kvs) = .error "IndexError" ∧
      processBrokenEntry (.obj kvs) = .error "IndexError") := by
  refine ⟨?_, ?_, ?_⟩
  · intro kvs h
    constructor <;>
      simp [processServerEntry, processBrokenEntry, pyGet, h, pyIndex0, decode,
        decodeTruthy, ok_bind, pure_eq_ok]
  · intro kvs t ts h hd
    constructor <;>
      simp [processServerEntry, processBrokenEntry, pyGet, h, pyIndex0, hd,
        decodeTruthy, ok_bind, pure_eq_ok]
  · intro kvs h
    constructor <;>
      simp [processServerEntry, processBrokenEntry, pyGet, h, pyIndex0,
        error_bind, ok_bind]

/-- C5 (witness): the amended per-entry behaviour applied at an entry with no
`anonymization` key: both comprehensions skip it without error. -/
theorem c5_entry_processing_witness :
    processServerEntry (.obj [("server", .str "https://x.example")]) = .ok none ∧
    processBrokenEntry (.obj [("server", .str "https://x.example")]) = .ok none :=
  c5_entry_processing.1 [("server", .str "https://x.example")] rfl

/-- C6 (counterexample): the `except` clause of
`__get_chromium_connections` names only `json.JSONDecodeError` and
`OSError`, so on a profile whose network-state file exists but holds bytes
that are not valid UTF-8 (e.g. a file truncated in the middle of a
multibyte character) the read raises `UnicodeDecodeError`, which is not
caught: extraction raises instead of returning the empty sequence. -/
theorem c6_counterexample :
    fsBadEncoding.pathExists (["profile"] ++ ["Network", "Network Persistent State"]) =
      true ∧
    fsBadEncoding.fileData (["profile"] ++ ["Network", "Network Persistent State"]) =
      .decodeError ∧
    getChromiumConnections fsBadEncoding ["profile"] = .error "UnicodeDecodeError" :=
  ⟨rfl, rfl, rfl⟩

/-- C6 (amended): when neither candidate network-state path exists, and when
the selected file fails to open (`OSError`) or its UTF-8 text fails JSON
parsing (`JSONDecodeError`), `__get_chromium_connections` returns `[]`
without raising; but when the file exists and its bytes fail UTF-8 decoding,
the resulting `UnicodeDecodeError` is not in the `except` clause and
propagates out of extraction (to the per-user handler). -/
theorem c6_connections_recovery :
    (∀ (fs : FS) (pp : List String),
      fs.pathExists (pp ++ ["Network", "Network Persistent State"]) = false →
      fs.pathExists (pp ++ ["Network Persistent State"]) = false →
      getChromiumConnections fs pp = .ok []) ∧
    (∀ (fs : FS) (pp p1 : List String),
      (possibleNetworkStatePaths pp).find? (fun q => fs.pathExists q) = some p1 →
      fs.fileData p1 = .openError →
      getChromiumConnections fs pp = .ok []) ∧
    (∀ (fs : FS) (pp p1 : List String),
      (possibleNetworkStatePaths pp).find? (fun q => fs.pathExists q) = some p1 →
      fs.fileData p1 = .parseError →
      getChromiumConnections fs pp = .ok []) ∧
    (∀ (fs : FS) (pp p1 : List String),
      (possibleNetworkStatePaths pp).find? (fun q => fs.pathExists q) = some p1 →
      fs.fileData p1 = .decodeError →
      getChromiumConnections fs pp = .error "UnicodeDecodeError") := by
  refine ⟨?_, ?_, ?_, ?_⟩
  · intro fs pp h1 h2
    unfold getChromiumConnections
    have hfind : (possibleNetworkStatePaths pp).find? (fun q => fs.pathExists q) = none := by
      simp [possibleNetworkStatePaths, List.find?, h1, h2]
    rw [hfind]
  · intro fs pp p1 hf hd
    unfold getChromiumConnections
    rw [hf]
    simp [hd]
  · intro fs pp p1 hf hd
    unfold getChromiumConnections
    rw [hf]
    simp [hd]
  · intro fs pp p1 hf hd
    unfold getChromiumConnections
    rw [hf]
    simp [hd]

/-- C6 (witness): the missing-file case applied at the demo profile (no
network-state artifact, empty result) and the undecodable-file case applied
at the bad-encoding fixture (uncaught `UnicodeDecodeError`). -/
theorem c6_connections_recovery_witness :
    getChromiumConnections fsDemo (chromeRootBob ++ ["Default"]) = .ok [] ∧
    getChromiumConnections fsBadEncoding ["profile"] = .error "UnicodeDecodeError" :=
  ⟨c6_connections_recovery.1 fsDemo (chromeRootBob ++ ["Default"]) rfl rfl,
   c6_connections_recovery.2.2.2 fsBadEncoding ["profile"]
     (["profile"] ++ ["Network", "Network Persistent State"]) rfl rfl⟩

/-- C7 (counterexample): `__get_chromium_installed_extensions` records the
version via Python `replace`, which removes **every** occurrence of `_0`:
on the directory name `1_0.2_0` it yields `1.2`, while stripping only the
trailing packaging suffix (the claim) yields `1_0.2`. -/
theorem c7_counterexample :
    normalizeChromiumVersion "1_0.2_0" = "1.2" ∧
    specVersionNormalize "1_0.2_0" = "1_0.2" ∧
    normalizeChromiumVersion "1_0.2_0" ≠ specVersionNormalize "1_0.2_0" := by
  refine ⟨rfl, rfl, ?_⟩
  intro h
  have : ("1.2" : String) = "1_0.2" := h
  exact absurd this (by decide)

/-- C7 (amended): the recorded version is the directory name with **every**
occurrence of the substring `_0` removed (Python `str.replace`); when the
underlying version contains no `_0` of its own — the normal case, e.g.
`137.0.1_0` — this coincides with stripping only the trailing packaging
suffix. -/
theorem c7_version_replace_all :
    normalizeChromiumVersion "137.0.1_0" = "137.0.1" ∧
    (∀ v : String, strContains v "_0" = false →
      normalizeChromiumVersion (v ++ "_0") = v ∧
      normalizeChromiumVersion (v ++ "_0") = specVersionNormalize (v ++ "_0")) := by
  refine ⟨rfl, ?_⟩
  intro v hv
  have hinf : ¬ (['_', '0'] <:+: v.data) := of_decide_eq_false hv
  have hdata : (v ++ "_0").data = v.data ++ ['_', '0'] := by
    simp [String.data_append]
  have hmain : normalizeChromiumVersion (v ++ "_0") = v := by
    unfold normalizeChromiumVersion pyReplace pyReplaceL
    rw [hdata]
    show String.mk (pyReplaceFuel ['_', '0'] []
      (v.data ++ ['_', '0']).length (v.data ++ ['_', '0'])) = v
    rw [pyReplaceFuel_append_suffix v.data _ (by simp) hinf]
  have hspec : specVersionNormalize (v ++ "_0") = v := by
    unfold specVersionNormalize pyRemoveSuf pyRemoveSufL
    rw [hdata]
    show String.mk (if List.isSuffixOf ['_', '0'] (v.data ++ ['_', '0']) then
      (v.data ++ ['_', '0']).take ((v.data ++ ['_', '0']).length - 2)
      else (v.data ++ ['_', '0'])) = v
    rw [if_pos (by rw [List.isSuffixOf_iff_suffix]; exact List.suffix_append _ _)]
    have hlen : (v.data ++ ['_', '0']).length - 2 = v.data.length := by simp
    rw [hlen, List.take_left]
  exact ⟨hmain, hmain.trans hspec.symm⟩

/-- C7 (witness): the amended normalization applied at the claim's own
example `137.0.1_0`. -/
theorem c7_version_replace_all_witness :
    normalizeChromiumVersion ("137.0.1" ++ "_0") = "137.0.1" :=
  (c7_version_replace_all.2 "137.0.1" rfl).1

/-- C3 (confirmed): locale resolution strips the `__MSG_` / `__` delimiters
and looks the stripped key up lower-cased; (a) a structured entry resolves to
its `message` field; (b) a string entry is used as a second lookup key —
resolving to the second entry's `message` field when that entry exists (a
message-bearing entry) and to the string itself when the key is absent; any
other first-lookup shape raises (`TypeError`, the spec's
`UnexpectedCatalogShape`); the claim's three concrete round-trips hold, for
both the name parser and the description parser. -/
theorem c3_locale_resolution :
    (∀ (raw : String) (msgs kvs : List (String × JValue)) (m : String),
      alookup msgs (pyLower (pyRemoveSuf (pyRemovePre raw "__MSG_") "__")) =
        some (.obj kvs) →
      alookup kvs "message" = some (.str m) →
      parseChromeExtensionName raw msgs = .ok m ∧
      parseChromeExtensionDescription raw msgs = .ok m) ∧
    (∀ (raw : String) (msgs : List (String × JValue)) (s : String)
        (kvs2 : List (String × JValue)) (m : String),
      alookup msgs (pyLower (pyRemoveSuf (pyRemovePre raw "__MSG_") "__")) =
        some (.str s) →
      alookup msgs s = some (.obj kvs2) →
      alookup kvs2 "message" = some (.str m) →
      parseChromeExtensionName raw msgs = .ok m ∧
      parseChromeExtensionDescription raw msgs = .ok m) ∧
    (∀ (raw : String) (msgs : List (String × JValue)) (s : String),
      alookup msgs (pyLower (pyRemoveSuf (pyRemovePre raw "__MSG_") "__")) =
        some (.str s) →
      alookup msgs s = none →
      parseChromeExtensionName raw msgs = .ok s ∧
      parseChromeExtensionDescription raw msgs = .ok s) ∧
    (∀ (raw : String) (msgs : List (String × JValue)) (v : JValue),
      alookup msgs (pyLower (pyRemoveSuf (pyRemovePre raw "__MSG_") "__")) = some v →
      (v = .null ∨ (∃ b, v = .bool b) ∨ (∃ n, v = .num n) ∨ (∃ a, v = .arr a)) →
      parseChromeExtensionName raw msgs = .error "TypeError" ∧
      parseChromeExtensionDescription raw msgs = .error "TypeError") ∧
    (parseChromeExtensionName "__MSG_foo__" catDirect = .ok "Bar" ∧
     parseChromeExtensionName "__MSG_foo__" catNested = .ok "Baz" ∧
     parseChromeExtensionName "__MSG_foo__" catDangling = .ok "other_key" ∧
     parseChromeExtensionDescription "__MSG_foo__" catDirect = .ok "Bar" ∧
     parseChromeExtensionDescription "__MSG_foo__" catNested = .ok "Baz" ∧
     parseChromeExtensionDescription "__MSG_foo__" catDangling = .ok "other_key") := by
  refine ⟨?_, ?_, ?_, ?_, rfl, rfl, rfl, rfl, rfl, rfl⟩
  · intro raw msgs kvs m h1 h2
    constructor <;>
      simp [parseChromeExtensionName, parseChromeExtensionDescription, h1, h2, pyStr]
  · intro raw msgs s kvs2 m h1 h2 hm
    cases kvs2 with
    | nil => exact absurd hm (by simp [alookup])
    | cons hd tl =>
      constructor <;>
        simp [parseChromeExtensionName, parseChromeExtensionDescription, h1, h2, hm,
          pyTruthy, pyStr]
  · intro raw msgs s h1 h2
    constructor <;>
      simp [parseChromeExtensionName, parseChromeExtensionDescription, h1, h2]
  · intro raw msgs v h1 hshape
    rcases hshape with h | ⟨b, h⟩ | ⟨n, h⟩ | ⟨a, h⟩ <;> subst h <;>
      (constructor <;>
        simp [parseChromeExtensionName, parseChromeExtensionDescription, h1])

/-- C3 (witness): the nested-catalog case applied at a concrete catalog where
`__MSG_Widget__` points to the alias `alias`, which carries the message
`W`. -/
theorem c3_locale_resolution_witness :
    parseChromeExtensionName "__MSG_Widget__"
      [("widget", .str "alias"), ("alias", .obj [("message", .str "W")])] = .ok "W" ∧
    parseChromeExtensionDescription "__MSG_Widget__"
      [("widget", .str "alias"), ("alias", .obj [("message", .str "W")])] = .ok "W" :=
  c3_locale_resolution.2.1 "__MSG_Widget__"
    [("widget", .str "alias"), ("alias", .obj [("message", .str "W")])]
    "alias" [("message", .str "W")] "W" rfl rfl rfl

theorem headD_mem {α : Type} {l : List α} (d : α) (h : l ≠ []) : l.headD d ∈ l := by
  cases l with
  | nil => exact absurd rfl h
  | cons a t => exact List.mem_cons_self a t

/-- C10 (confirmed): every record the Chromium loader produces has active
flag `True`, empty homepage URL and a present-but-empty optional-permission
object (`Permission()`), whatever the manifest says; every record the
Firefox loader produces has an absent (`None`) connections sequence. -/
theorem c10_loader_pinned_fields :
    (∀ (fs : FS) (usernames : List String) (browser : String) (r : ExtensionInfo),
      r ∈ getChromiumInstalledExtensions fs usernames browser →
      r.active = .bool true ∧ r.homepage_url = .str "" ∧
      r.optional_permissions = some { permission := none, origins := none }) ∧
    (∀ (fs : FS) (users : List String) (L : List ExtensionInfo) (r : ExtensionInfo),
      getFirefoxInstalledExtensions fs users = .ok L → r ∈ L →
      r.connections = none) := by
  constructor
  · intro fs usernames browser r hr
    obtain ⟨u, _, hu⟩ := getChromiumInstalledExtensions_mem hr
    obtain ⟨profile, hp⟩ := chromiumUserRecords_mem hu
    obtain ⟨folder, _, hf⟩ := chromiumProfileRecords_mem hp
    obtain ⟨ha, hh, ho, _⟩ := chromiumFolderRecord_fields hf
    exact ⟨ha, hh, ho⟩
  · intro fs users L r hok hr
    exact getFirefox_connections hok r hr

/-- C10 (witness): the pinned fields of the first record the demo Chromium
scan produces, and the absent connections of the first record the demo
Firefox scan produces. -/
theorem c10_loader_pinned_fields_witness :
    ((getChromiumInstalledExtensions fsDemo ["bob"] "Google Chrome").headD
        dummyRecord).active = .bool true ∧
    ((getChromiumInstalledExtensions fsDemo ["bob"] "Google Chrome").headD
        dummyRecord).homepage_url = .str "" ∧
    ((getChromiumInstalledExtensions fsDemo ["bob"] "Google Chrome").headD
        dummyRecord).optional_permissions =
      some { permission := none, origins := none } ∧
    (((getFirefoxInstalledExtensions fsDemo ["bob"]).toOption.getD []).headD
        dummyRecord).connections = none := by
  have h1 := c10_loader_pinned_fields.1 fsDemo ["bob"] "Google Chrome"
    ((getChromiumInstalledExtensions fsDemo ["bob"] "Google Chrome").headD dummyRecord)
    (headD_mem dummyRecord (List.cons_ne_nil _ _))
  have h2 := c10_loader_pinned_fields.2 fsDemo ["bob"]
    ((getFirefoxInstalledExtensions fsDemo ["bob"]).toOption.getD [])
    (((getFirefoxInstalledExtensions fsDemo ["bob"]).toOption.getD []).headD dummyRecord)
    rfl (headD_mem dummyRecord (List.cons_ne_nil _ _))
  exact ⟨h1.1, h1.2.1, h1.2.2, h2⟩

theorem tailHeadD_mem {α : Type} {l : List α} (d : α) (h : l.tail ≠ []) :
    l.tail.headD d ∈ l := by
  cases l with
  | nil => exact absurd rfl h
  | cons a t => exact List.mem_cons_of_mem a (headD_mem d h)

/-- C9 (confirmed): within one user's Chromium scan, any two records carrying
the same profile name carry equal connections sequences — the connection set
is computed by `__get_chromium_connections` from the profile directory alone
and attached unchanged to every extension record of that profile; the
extension identifier decoded from an anonymization token is never compared
against the record's identifier. -/
theorem c9_profile_connections_equal :
    ∀ (fs : FS) (username browser browser_short : String) (r1 r2 : ExtensionInfo),
      r1 ∈ chromiumUserRecords fs username browser browser_short →
      r2 ∈ chromiumUserRecords fs username browser browser_short →
      r1.profile = r2.profile →
      r1.connections = r2.connections := by
  intro fs u b bs r1 r2 h1 h2 hpeq
  obtain ⟨p1, hp1⟩ := chromiumUserRecords_mem h1
  obtain ⟨f1, _, hf1⟩ := chromiumProfileRecords_mem hp1
  obtain ⟨_, _, _, _, hprof1, _, c1, hc1, hcon1⟩ := chromiumFolderRecord_fields hf1
  obtain ⟨p2, hp2⟩ := chromiumUserRecords_mem h2
  obtain ⟨f2, _, hf2⟩ := chromiumProfileRecords_mem hp2
  obtain ⟨_, _, _, _, hprof2, _, c2, hc2, hcon2⟩ := chromiumFolderRecord_fields hf2
  have hpp : p1 = p2 := by rw [← hprof1, ← hprof2, hpeq]
  subst hpp
  rw [hc1] at hc2
  injection hc2 with hc
  rw [hcon1, hcon2, hc]

/-- C9 (witness): the first two records of the demo user's single Chromium
profile (`extA` and `extB` in profile `Default`) carry equal connections. -/
theorem c9_profile_connections_equal_witness :
    ((chromiumUserRecords fsDemo "bob" "Google Chrome" "Chrome").headD
        dummyRecord).connections =
    ((chromiumUserRecords fsDemo "bob" "Google Chrome" "Chrome").tail.headD
        dummyRecord).connections :=
  c9_profile_connections_equal fsDemo "bob" "Google Chrome" "Chrome" _ _
    (headD_mem dummyRecord (List.cons_ne_nil _ _))
    (tailHeadD_mem dummyRecord (List.cons_ne_nil _ _))
    rfl

/-- C4 (confirmed): (i) a successful scan is exactly the concatenation of
Firefox, then Chrome, then Edge records, each family contributing iff it was
detected as installed; (ii) within one user the Firefox profile files are
visited in sorted full-path order; (iii) within one Chromium profile the
emitted records follow sorted (lexicographic) extension-folder name order
and the literal name `Temp` never appears as an extension identifier. -/
theorem c4_scan_order :
    (∀ (sc : ScanContext) (fs : FS) (users : List String) (l : List ExtensionInfo),
      getExtensionInfo sc fs users = .ok l →
      ∃ ffl, (if sc.has_firefox then getFirefoxInstalledExtensions fs users = .ok ffl
          else ffl = []) ∧
        l = ffl ++ (if sc.has_chrome then getChromeInstalledExtensions fs users else []) ++
          (if sc.has_edge then getEdgeInstalledExtensions fs users else [])) ∧
    (∀ (fs : FS) (u : String) (files : List (List String)),
      firefoxUserExtFiles fs u = .ok files →
      List.Pairwise (fun a b => pyStrLe (joinPath a) (joinPath b) = true) files) ∧
    (∀ (fs : FS) (username browser browser_short : String)
        (profiles_path : List String) (profile : String),
      (∀ r ∈ exceptToList (chromiumProfileRecords fs username browser browser_short
          profiles_path profile), r.extension_id ≠ .str "Temp") ∧
      List.Pairwise jstrLe
        ((exceptToList (chromiumProfileRecords fs username browser browser_short
          profiles_path profile)).map (fun r => r.extension_id))) := by
  refine ⟨?_, ?_, ?_⟩
  · intro sc fs users l h
    unfold getExtensionInfo at h
    obtain ⟨ff, hff, h⟩ := exceptBind_ok h
    rw [pure_eq_ok] at h
    cases h
    refine ⟨ff, ?_, rfl⟩
    cases hb : sc.has_firefox with
    | true =>
      simp only [hb, if_true] at hff ⊢
      exact hff
    | false =>
      simp only [hb, Bool.false_eq_true, if_false, pure_eq_ok, Except.ok.injEq] at hff
      simp only [hb, Bool.false_eq_true, if_false]
      exact hff.symm
  · intro fs u files h
    unfold firefoxUserExtFiles at h
    obtain ⟨names, h1, h⟩ := exceptBind_ok h
    rw [pure_eq_ok] at h
    cases h
    haveI : IsTotal (List String) (fun a b => pyStrLe (joinPath a) (joinPath b) = true) :=
      ⟨fun a b => pyStrLe_total _ _⟩
    haveI : IsTrans (List String) (fun a b => pyStrLe (joinPath a) (joinPath b) = true) :=
      ⟨fun _ _ _ hab hbc => pyStrLe_trans hab hbc⟩
    exact List.sorted_insertionSort _ _
  · intro fs username browser browser_short profiles_path profile
    constructor
    · intro r hr
      obtain ⟨folder, hne, hf⟩ := chromiumProfileRecords_mem hr
      obtain ⟨_, _, _, hid, _⟩ := chromiumFolderRecord_fields hf
      rw [hid]
      intro heq
      injection heq with heq
      exact hne heq
    · simp only [chromiumProfileRecords]
      split
      · split
        · simp [exceptToList]
        · rename_i names _
          obtain ⟨l', hpre, heq⟩ := collectRecords_ids
            (fun x r hf => (chromiumFolderRecord_fields hf).2.2.2.1)
          rw [heq]
          refine List.pairwise_map.mpr ?_
          haveI : IsTotal String (fun a b => pyStrLe a b = true) :=
            ⟨fun a b => pyStrLe_total _ _⟩
          haveI : IsTrans String (fun a b => pyStrLe a b = true) :=
            ⟨fun _ _ _ hab hbc => pyStrLe_trans hab hbc⟩
          have hsort := List.sorted_insertionSort (fun a b => pyStrLe a b = true)
            (names.filter (fun e => e ≠ "Temp"))
          have hp : List.Pairwise (fun a b => pyStrLe a b = true) l' :=
            hsort.sublist hpre.sublist
          exact hp.imp (fun hab => ⟨_, _, rfl, rfl, hab⟩)
      · simp [exceptToList]

/-- C4 (witness): the orchestrator decomposition and the Firefox file-order
property applied at the demo filesystem with the user `bob`. -/
theorem c4_scan_order_witness :
    (∃ ffl, (if (ScanContext.mk true true false).has_firefox then
        getFirefoxInstalledExtensions fsDemo ["bob"] = .ok ffl else ffl = []) ∧
      (getExtensionInfo ⟨true, true, false⟩ fsDemo ["bob"]).toOption.getD [] =
        ffl ++ (if (ScanContext.mk true true false).has_chrome then
            getChromeInstalledExtensions fsDemo ["bob"] else []) ++
          (if (ScanContext.mk true true false).has_edge then
            getEdgeInstalledExtensions fsDemo ["bob"] else [])) ∧
    List.Pairwise (fun a b => pyStrLe (joinPath a) (joinPath b) = true)
      ((firefoxUserExtFiles fsDemo "bob").toOption.getD []) ∧
    ((exceptToList (chromiumProfileRecords fsDemo "bob" "Google Chrome" "Chrome"
        (getChromeProfilePath "bob" "Google Chrome") "Default")).headD
      dummyRecord).extension_id ≠ .str "Temp" :=
  ⟨c4_scan_order.1 ⟨true, true, false⟩ fsDemo ["bob"] _ rfl,
   c4_scan_order.2.1 fsDemo "bob" _ rfl,
   (c4_scan_order.2.2 fsDemo "bob" "Google Chrome" "Chrome"
      (getChromeProfilePath "bob" "Google Chrome") "Default").1 _
      (headD_mem dummyRecord (List.cons_ne_nil _ _))⟩
